import Mathlib

/-
Shallow embedding of the Task Dependency & Status Graph Engine from
scripts/modules/task-manager.js and the content-generation validator from
ai-services.js.  JavaScript objects are embedded as Lean structures whose
optional fields are Option-typed (JS undefined = none); JS string/array
truthiness is made explicit (empty string is falsy, any array is truthy);
fallible operations return Except.
-/

namespace TaskMaster

/-- A subtask record as stored inside a parent task's subtasks array. -/
structure Subtask where
  id : Int
  title : Option String := none
  description : Option String := none
  details : Option String := none
  testStrategy : Option String := none
  status : Option String := none
  priority : Option String := none
  dependencies : Option (List Int) := none
  parentTaskId : Option Int := none
deriving DecidableEq

/-- A top-level task record from the tasks array of tasks.json. -/
structure Task where
  id : Int
  title : Option String := none
  description : Option String := none
  details : Option String := none
  testStrategy : Option String := none
  status : Option String := none
  priority : Option String := none
  dependencies : Option (List Int) := none
  subtasks : Option (List Subtask) := none
  parentTaskId : Option Int := none
deriving DecidableEq

/-- JS `s.split(sep)` for a one-character separator, via the char list. -/
def splitCharAux (c : Char) : List Char → List Char → List (List Char)
  | [], acc => [acc.reverse]
  | x :: xs, acc =>
    if x == c then acc.reverse :: splitCharAux c xs []
    else splitCharAux c xs (x :: acc)

/-- JS `s.split(sep)` for a one-character separator. -/
def jsSplit (s : String) (c : Char) : List String :=
  (splitCharAux c s.data []).map String.mk

/-- Whitespace test for trimming. -/
def isWs (c : Char) : Bool :=
  c == ' ' || c == '\t' || c == '\n' || c == '\r'

/-- JS `s.trim()`. -/
def jsTrim (s : String) : String :=
  String.mk (((s.data.dropWhile isWs).reverse.dropWhile isWs).reverse)

/-- JS `s.toLowerCase()` (ASCII, which is all the engine compares). -/
def jsToLower (s : String) : String :=
  String.mk (s.data.map Char.toLower)

/-- JS `s.includes(c)` for a one-character needle. -/
def jsContainsChar (s : String) (c : Char) : Bool :=
  s.data.contains c

/-- JS `v || d` on an optional string: undefined and the empty string are falsy. -/
def strOr (v : Option String) (d : String) : String :=
  match v with
  | some s => if s = "" then d else s
  | none => d

/-- JS truthiness of an optional integer field (0 and undefined are falsy). -/
def truthyInt (v : Option Int) : Bool :=
  match v with
  | some n => n != 0
  | none => false

/-- JS `Math.max(...l)` on a nonempty integer list (callers guard emptiness). -/
def jsMaxList : List Int → Int
  | [] => 0
  | x :: xs => xs.foldl max x

/-- JS `parseInt(s, 10)`: optional sign then a leading digit run; none models NaN. -/
def jsParseInt (s : String) : Option Int :=
  let core := fun (l : List Char) =>
    let ds := l.takeWhile Char.isDigit
    if ds.isEmpty then none
    else some (Int.ofNat (ds.foldl (fun acc c => acc * 10 + (c.toNat - 48)) 0))
  match (jsTrim s).data with
  | '-' :: rest => (core rest).map (fun n => -n)
  | '+' :: rest => core rest
  | l => core l

/-- The code's done test, `st.status === 'done' || st.status === 'completed'`. -/
def isDoneStr (s : Option String) : Bool :=
  s == some "done" || s == some "completed"

/-- The cascade trigger, `newStatus.toLowerCase() === 'done' || === 'completed'`. -/
def isDoneInput (ns : String) : Bool :=
  jsToLower ns == "done" || jsToLower ns == "completed"

/-- Replace the first list element satisfying p, mirroring JS find-then-mutate. -/
def replaceFirst (p : α → Bool) (f : α → α) : List α → List α
  | [] => []
  | x :: xs => if p x then f x :: xs else x :: replaceFirst p f xs

/-- Remove the first element satisfying p, returning it with the remainder
(mirrors JS findIndex followed by splice(index, 1)). -/
def removeFirst (p : α → Bool) : List α → Option (α × List α)
  | [] => none
  | x :: xs =>
    if p x then some (x, xs)
    else
      match removeFirst p xs with
      | none => none
      | some (y, ys) => some (y, x :: ys)

/-- Errors thrown by updateSingleTaskStatus. -/
inductive UpdErr where
  | parentNotFound (pid : Option Int)
  | noSubtasks (pid : Option Int)
  | subtaskNotFound (pid sid : Option Int)
  | taskNotFound (tid : Option Int)
deriving DecidableEq

/-- Parent part of a dotted address, `parseInt(input.split('.')[0], 10)`. -/
def parsedParentId (s : String) : Option Int :=
  ((jsSplit s '.').map jsParseInt).headD none

/-- Subtask part of a dotted address, `parseInt(input.split('.')[1], 10)`. -/
def parsedSubId (s : String) : Option Int :=
  (((jsSplit s '.').map jsParseInt).drop 1).headD none

/-- The plain-task branch of updateSingleTaskStatus: set the status and, when
the new status lowercases to done/completed and the task has a nonempty
subtasks array, force every not-yet-done subtask to the new status. -/
def applyDoneCascade (t : Task) (ns : String) : Task :=
  let t1 : Task := { t with status := some ns }
  if isDoneInput ns then
    match t1.subtasks with
    | some subs =>
      if subs.length > 0 then
        { t1 with subtasks := some (subs.map (fun st =>
            if isDoneStr st.status then st else { st with status := some ns })) }
      else t1
    | none => t1
  else t1

/-- updateSingleTaskStatus(tasksPath, taskIdInput, newStatus, data): updates one
task or subtask in place; the returned Bool is the advisory console signal
("all subtasks done, consider updating the parent").  Throwing JS paths
return Except.error before any mutation is committed. -/
def updateSingleTaskStatus (tasks : List Task) (taskIdInput : String)
    (newStatus : String) : Except UpdErr (List Task × Bool) :=
  if jsContainsChar taskIdInput '.' then
    let parentId := parsedParentId taskIdInput
    let subtaskId := parsedSubId taskIdInput
    match tasks.find? (fun t => some t.id == parentId) with
    | none => .error (.parentNotFound parentId)
    | some parentTask =>
      match parentTask.subtasks with
      | none => .error (.noSubtasks parentId)
      | some subs =>
        match subs.find? (fun st => some st.id == subtaskId) with
        | none => .error (.subtaskNotFound parentId subtaskId)
        | some _ =>
          let subs' := replaceFirst (fun st => some st.id == subtaskId)
            (fun st => { st with status := some newStatus }) subs
          let tasks' := replaceFirst (fun t => some t.id == parentId)
            (fun t => { t with subtasks := some subs' }) tasks
          let advisory := isDoneInput newStatus
            && subs'.all (fun st => isDoneStr st.status)
            && !(isDoneStr parentTask.status)
          .ok (tasks', advisory)
  else
    let taskId := jsParseInt taskIdInput
    match tasks.find? (fun t => some t.id == taskId) with
    | none => .error (.taskNotFound taskId)
    | some _ =>
      .ok (replaceFirst (fun t => some t.id == taskId)
            (fun t => applyDoneCascade t newStatus) tasks, false)

/-- The batch loop of setTaskStatus: items run sequentially inside one
try/catch, so the first thrown error aborts the remainder of the batch. -/
def setStatusBatchGo (tasks : List Task) (ids : List String) (ns : String) :
    Except UpdErr (List Task) :=
  match ids with
  | [] => .ok tasks
  | id :: rest =>
    match updateSingleTaskStatus tasks id ns with
    | .error e => .error e
    | .ok (ts', _) => setStatusBatchGo ts' rest ns

/-- setTaskStatus(tasksPath, taskIdInput, newStatus): splits the input on
commas, trims every piece, and updates them in order; writeJSON runs only
after the loop finishes, so an ok result is the persisted state. -/
def setTaskStatus (tasks : List Task) (taskIdInput : String) (ns : String) :
    Except UpdErr (List Task) :=
  setStatusBatchGo tasks ((jsSplit taskIdInput ',').map jsTrim) ns

/-- The priority lookup of findNextTask,
`priorityValues[p || 'medium'] || 2` with high 3, medium 2, low 1. -/
def priorityValue (p : Option String) : Int :=
  match p with
  | some "high" => 3
  | some "low" => 1
  | _ => 2

/-- The eligibility filter of findNextTask: status pending or in-progress, a
present dependencies array, and every dependency id in the set of done or
completed top-level task ids. -/
def eligibleTasks (tasks : List Task) : List Task :=
  let completedTaskIds := (tasks.filter (fun t => isDoneStr t.status)).map (·.id)
  tasks.filter (fun t =>
    (t.status == some "pending" || t.status == some "in-progress")
    && t.dependencies.isSome
    && (t.dependencies.getD []).all (fun d => completedTaskIds.contains d))

/-- The sort comparator of findNextTask: priority descending, then dependency
count ascending (when both arrays exist and the counts differ), then id. -/
def cmpTasks (a b : Task) : Int :=
  let pa := priorityValue a.priority
  let pb := priorityValue b.priority
  if pb != pa then pb - pa
  else if a.dependencies.isSome && b.dependencies.isSome
      && ((a.dependencies.getD []).length != (b.dependencies.getD []).length) then
    ((a.dependencies.getD []).length : Int) - ((b.dependencies.getD []).length : Int)
  else a.id - b.id

/-- First minimal element under the comparator; for a consistent comparator
this equals the head of the JS stable sort used by findNextTask. -/
def pickBest (x : Task) : List Task → Task
  | [] => x
  | y :: ys => if cmpTasks y x < 0 then pickBest y ys else pickBest x ys

/-- findNextTask(tasks): null when no task is eligible, otherwise the first
element of the eligible list sorted by the comparator. -/
def findNextTask (tasks : List Task) : Option Task :=
  match eligibleTasks tasks with
  | [] => none
  | x :: xs => some (pickBest x xs)

/-- Uniform node view used by the recursive dependency walk, covering both
tasks and subtasks. -/
structure NodeV where
  parentTaskId : Option Int := none
  dependencies : Option (List Int) := none
  subtasks : Option (List Subtask) := none
deriving DecidableEq

/-- View a task as a node for the dependency walk. -/
def nodeOfTask (t : Task) : NodeV :=
  { parentTaskId := t.parentTaskId, dependencies := t.dependencies,
    subtasks := t.subtasks }

/-- View a subtask as a node for the dependency walk. -/
def nodeOfSubtask (st : Subtask) : NodeV :=
  { parentTaskId := st.parentTaskId, dependencies := st.dependencies,
    subtasks := none }

/-- isTaskDependentOn(allTasks, task, targetTaskId): true when the node's
parent back-reference is the target, a dependency equals the target, a
dependency task transitively depends on it, or one of the node's subtasks
does.  The source recursion can diverge on cyclic data, so the embedding
takes explicit fuel; fuel exhaustion returns false. -/
def isTaskDependentOn : Nat → List Task → NodeV → Int → Bool
  | 0, _, _, _ => false
  | fuel + 1, allTasks, node, target =>
    (node.parentTaskId == some target)
    || (node.dependencies.getD []).contains target
    || (node.dependencies.getD []).any (fun d =>
        match allTasks.find? (fun t => t.id == d) with
        | some dt => isTaskDependentOn fuel allTasks (nodeOfTask dt) target
        | none => false)
    || (node.subtasks.getD []).any (fun st =>
        isTaskDependentOn fuel allTasks (nodeOfSubtask st) target)

/-- Errors thrown by addSubtask and removeSubtask. -/
inductive SubErr where
  | parentNotFound (pid : Int)
  | targetNotFound (tid : Int)
  | alreadySubtask (tid : Int)
  | selfReference
  | circularConversion
  | invalidFormat (s : String)
  | parentNotFoundStr (pid : Option Int)
  | noSubtasks (pid : Int)
  | subtaskNotFound (s : String)
deriving DecidableEq

/-- The next-subtask-id computation,
`subtasks.length > 0 ? Math.max(...subtasks.map(st => st.id)) : 0`. -/
def highestSubtaskId (subs : List Subtask) : Int :=
  if subs.length > 0 then jsMaxList (subs.map (·.id)) else 0

/-- The task-to-subtask conversion branch of addSubtask (existingTaskId given):
checks parent existence, the already-a-subtask back-reference, self
reference, then the recursive circular-dependency walk; on success clones
the task under the next sibling id inside the parent and removes it from
the top-level list.  Every error is thrown before writeJSON, so a failing
call commits nothing. -/
def addSubtaskConvert (fuel : Nat) (tasks : List Task)
    (parentIdNum existingTaskIdNum : Int) : Except SubErr (List Task × Subtask) :=
  match tasks.find? (fun t => t.id == parentIdNum) with
  | none => .error (.parentNotFound parentIdNum)
  | some parentTask =>
    match tasks.find? (fun t => t.id == existingTaskIdNum) with
    | none => .error (.targetNotFound existingTaskIdNum)
    | some existingTask =>
      if truthyInt existingTask.parentTaskId then
        .error (.alreadySubtask existingTaskIdNum)
      else if existingTaskIdNum == parentIdNum then
        .error .selfReference
      else if isTaskDependentOn fuel tasks (nodeOfTask parentTask) existingTaskIdNum then
        .error .circularConversion
      else
        let subs := parentTask.subtasks.getD []
        let newSubtaskId := highestSubtaskId subs + 1
        let newSubtask : Subtask :=
          { id := newSubtaskId, title := existingTask.title,
            description := existingTask.description,
            details := existingTask.details,
            testStrategy := existingTask.testStrategy,
            status := existingTask.status, priority := existingTask.priority,
            dependencies := existingTask.dependencies,
            parentTaskId := some parentIdNum }
        let tasks1 := replaceFirst (fun t => t.id == parentIdNum)
          (fun t => { t with subtasks := some (subs ++ [newSubtask]) }) tasks
        let tasks2 :=
          match removeFirst (fun t => t.id == existingTaskIdNum) tasks1 with
          | some (_, rest) => rest
          | none => tasks1
        .ok (tasks2, newSubtask)

/-- Payload for creating a fresh subtask. -/
structure NewSubtaskData where
  title : Option String := none
  description : Option String := none
  details : Option String := none
  status : Option String := none
  dependencies : Option (List Int) := none
deriving DecidableEq

/-- The new-subtask branch of addSubtask (newSubtaskData given): next sibling
id is max existing id (or 0) plus 1; status defaults to pending; the
subtask is appended to the parent's list. -/
def addSubtaskNew (tasks : List Task) (parentIdNum : Int) (d : NewSubtaskData) :
    Except SubErr (List Task × Subtask) :=
  match tasks.find? (fun t => t.id == parentIdNum) with
  | none => .error (.parentNotFound parentIdNum)
  | some parentTask =>
    let subs := parentTask.subtasks.getD []
    let newSubtaskId := highestSubtaskId subs + 1
    let newSubtask : Subtask :=
      { id := newSubtaskId, title := d.title,
        description := some (strOr d.description ""),
        details := some (strOr d.details ""),
        testStrategy := none,
        status := some (strOr d.status "pending"),
        priority := none,
        dependencies := some (d.dependencies.getD []),
        parentTaskId := some parentIdNum }
    let tasks' := replaceFirst (fun t => t.id == parentIdNum)
      (fun t => { t with subtasks := some (subs ++ [newSubtask]) }) tasks
    .ok (tasks', newSubtask)

/-- removeSubtask(tasksPath, subtaskId, convertToTask): removes the addressed
subtask from its parent (deleting the subtasks field when it becomes
empty); with convertToTask it re-materializes the subtask as a new
top-level task with id max(task ids) + 1, parent id appended to its
dependencies when absent, and priority taken from the parent (or medium). -/
def removeSubtask (tasks : List Task) (subtaskIdStr : String)
    (convertToTask : Bool) : Except SubErr (List Task × Option Task) :=
  if !(jsContainsChar subtaskIdStr '.') then .error (.invalidFormat subtaskIdStr)
  else
    match parsedParentId subtaskIdStr with
    | none => .error (.parentNotFoundStr none)
    | some parentId =>
      match tasks.find? (fun t => t.id == parentId) with
      | none => .error (.parentNotFoundStr (some parentId))
      | some parentTask =>
        match parentTask.subtasks with
        | none => .error (.noSubtasks parentId)
        | some subs =>
          if subs.length == 0 then .error (.noSubtasks parentId)
          else
            match removeFirst
                (fun st => some st.id == parsedSubId subtaskIdStr) subs with
            | none => .error (.subtaskNotFound subtaskIdStr)
            | some (removedSubtask, subsRest) =>
              let newSubs : Option (List Subtask) :=
                if subsRest.length == 0 then none else some subsRest
              let tasksAfter := replaceFirst (fun t => t.id == parentId)
                (fun t => { t with subtasks := newSubs }) tasks
              if convertToTask then
                let newTaskId := jsMaxList (tasksAfter.map (·.id)) + 1
                let deps0 := removedSubtask.dependencies.getD []
                let deps :=
                  if deps0.contains parentId then deps0 else deps0 ++ [parentId]
                let convertedTask : Task :=
                  { id := newTaskId, title := removedSubtask.title,
                    description := some (strOr removedSubtask.description ""),
                    details := some (strOr removedSubtask.details ""),
                    testStrategy := none,
                    status := some (strOr removedSubtask.status "pending"),
                    priority := some (strOr parentTask.priority "medium"),
                    dependencies := some deps,
                    subtasks := none, parentTaskId := none }
                .ok (tasksAfter ++ [convertedTask], some convertedTask)
              else .ok (tasksAfter, none)

/-- Generated content for addTask (title and description are checked by the
source before the task object is built). -/
structure TaskContent where
  title : String
  description : String
  details : Option String := none
  testStrategy : Option String := none
deriving DecidableEq

/-- The graph-mutating core of addTask: next id is max(task ids) + 1,
dependencies that match no existing task id are dropped (returned as the
warning list), and the new pending task is appended; the operation never
fails on bad dependencies. -/
def addTaskCore (tasks : List Task) (content : TaskContent)
    (dependencies : List Int) (priority : String) :
    List Task × Task × List Int :=
  let newTaskId := jsMaxList (tasks.map (·.id)) + 1
  let invalidDeps := dependencies.filter (fun d =>
    !(tasks.any (fun t => t.id == d)))
  let deps :=
    if invalidDeps.length > 0 then
      dependencies.filter (fun d => !(invalidDeps.contains d))
    else dependencies
  let newTask : Task :=
    { id := newTaskId, title := some content.title,
      description := some content.description,
      status := some "pending",
      dependencies := some deps,
      priority := some priority,
      details := some (strOr content.details ""),
      testStrategy := some (strOr content.testStrategy
        "Manually verify the implementation works as expected."),
      subtasks := none, parentTaskId := none }
  (tasks ++ [newTask], newTask, invalidDeps)

/-- A JSON-ish value as produced by the external content generator. -/
inductive RawVal where
  | vnum (n : Int)
  | vstr (s : String)
  | varr (l : List RawVal)
  | vother

/-- JS truthiness of an optional raw field value. -/
def truthyRaw (v : Option RawVal) : Bool :=
  match v with
  | none => false
  | some (.vnum n) => n != 0
  | some (.vstr s) => s != ""
  | some (.varr _) => true
  | some .vother => true

/-- JS `v || d` on a raw field value: the field itself when truthy, else d. -/
def rawOr (v : Option RawVal) (d : RawVal) : RawVal :=
  match v with
  | some x => if truthyRaw (some x) then x else d
  | none => d

/-- An object record returned by the generator, fields optional. -/
structure RawRecord where
  id : Option RawVal := none
  title : Option RawVal := none
  description : Option RawVal := none
  status : Option RawVal := none
  dependencies : Option RawVal := none
  priority : Option RawVal := none
  details : Option RawVal := none
  testStrategy : Option RawVal := none

/-- A parsed array entry: either a genuine object or something else
(null, number, string), which the validator skips. -/
inductive GenRecord where
  | notObject
  | obj (r : RawRecord)

/-- A validated subtask record admitted into the graph. -/
structure ValidatedSubtask where
  id : Int
  title : RawVal
  description : RawVal
  status : RawVal
  dependencies : List Int
  priority : RawVal
  details : RawVal
  testStrategy : RawVal

/-- Keep only numeric dependency entries,
`deps.filter(dep => typeof dep === 'number')`. -/
def numericDeps (v : Option RawVal) : List Int :=
  match v with
  | some (.varr l) =>
    l.filterMap (fun x => match x with | .vnum n => some n | _ => none)
  | _ => []

/-- The per-record validation and defaulting of parseSubtasksFromText: id is
the record's numeric id or the expected one, missing or falsy text fields
get placeholders, status is forced to pending, and dependencies keep only
numeric entries. -/
def validateRec (r : RawRecord) (expectedId : Int) : ValidatedSubtask :=
  { id := match r.id with | some (.vnum n) => n | _ => expectedId,
    title := rawOr r.title (.vstr ("Subtask " ++ toString expectedId)),
    description := rawOr r.description (.vstr "No description provided."),
    status := .vstr "pending",
    dependencies := numericDeps r.dependencies,
    priority := rawOr r.priority (.vstr "medium"),
    details := rawOr r.details (.vstr "No details provided."),
    testStrategy := rawOr r.testStrategy (.vstr "Manual verification.") }

/-- The map-then-filter of parseSubtasksFromText: each entry is validated with
expected id startId + index; entries that are not objects map to null and
are filtered out. -/
def parseValidate : List GenRecord → Int → List ValidatedSubtask
  | [], _ => []
  | .notObject :: rest, eid => parseValidate rest (eid + 1)
  | .obj r :: rest, eid => validateRec r eid :: parseValidate rest (eid + 1)

/-! Helper lemmas about the list combinators. -/

theorem replaceFirst_map (p : α → Bool) (f : α → α) (g : α → β)
    (hg : ∀ x, g (f x) = g x) (l : List α) :
    (replaceFirst p f l).map g = l.map g := by
  induction l with
  | nil => rfl
  | cons x xs ih =>
    by_cases h : p x
    · simp [replaceFirst, h, hg]
    · simp [replaceFirst, h, ih]

theorem find?_replaceFirst (p : α → Bool) (f : α → α)
    (hf : ∀ x, p (f x) = p x) (l : List α) (x : α) (h : l.find? p = some x) :
    (replaceFirst p f l).find? p = some (f x) := by
  induction l with
  | nil => simp at h
  | cons a as ih =>
    by_cases ha : p a
    · rw [List.find?_cons_of_pos _ ha] at h
      injection h with h
      subst h
      simp only [replaceFirst, ha, if_true]
      exact List.find?_cons_of_pos _ (by rw [hf]; exact ha)
    · rw [List.find?_cons_of_neg _ (by simpa using ha)] at h
      simp only [replaceFirst, ha, Bool.false_eq_true, if_false]
      rw [List.find?_cons_of_neg _ (by simpa using ha)]
      exact ih h

theorem applyDoneCascade_id (t : Task) (ns : String) :
    (applyDoneCascade t ns).id = t.id := by
  unfold applyDoneCascade
  by_cases h : isDoneInput ns
  · simp only [h, if_true]
    cases ht : t.subtasks <;> simp [ht] <;> split <;> rfl
  · simp [h]

theorem applyDoneCascade_pres (s : String) (ns : String) (x : Task) :
    (fun t => some t.id == jsParseInt s) (applyDoneCascade x ns)
      = (fun t => some t.id == jsParseInt s) x := by
  simp only [applyDoneCascade_id]

theorem applyDoneCascade_all_done (t : Task) (ns : String)
    (hns : ns = "done" ∨ ns = "completed") :
    ((applyDoneCascade t ns).subtasks.getD []).all
      (fun st => isDoneStr st.status) = true := by
  have hinput : isDoneInput ns = true := by
    rcases hns with h | h <;> (subst h; decide)
  unfold applyDoneCascade
  simp only [hinput, if_true]
  cases ht : t.subtasks with
  | none => simp [ht]
  | some subs =>
    by_cases hlen : subs.length > 0
    · simp only [ht, hlen, if_true, Option.getD_some]
      rw [List.all_map]
      apply List.all_eq_true.mpr
      intro st _
      by_cases hd : isDoneStr st.status
      · simp [hd]
      · simp only [hd, Bool.false_eq_true, if_false, Function.comp]
        rcases hns with h | h <;> subst h <;> decide
    · have : subs = [] := List.length_eq_zero.mp (by omega)
      subst this
      simp [ht]

/-- C2: setting a task's status to done (or its synonym completed) leaves
every subtask of that task with a status that normalizes to done: subtasks
already done or completed are kept, all others are force-set to the new
status, unconditionally. -/
theorem setStatus_done_cascades_to_subtasks
    (tasks : List Task) (s ns : String) (ts' : List Task) (adv : Bool) (t' : Task)
    (hns : ns = "done" ∨ ns = "completed")
    (hdot : jsContainsChar s '.' = false)
    (hok : updateSingleTaskStatus tasks s ns = .ok (ts', adv))
    (hfind : ts'.find? (fun t => some t.id == jsParseInt s) = some t') :
    (t'.subtasks.getD []).all (fun st => isDoneStr st.status) = true := by
  unfold updateSingleTaskStatus at hok
  rw [hdot] at hok
  simp only [Bool.false_eq_true, if_false] at hok
  cases hf : tasks.find? (fun t => some t.id == jsParseInt s) with
  | none => rw [hf] at hok; exact absurd hok (by simp)
  | some t0 =>
    rw [hf] at hok
    simp only [Except.ok.injEq, Prod.mk.injEq] at hok
    obtain ⟨h1, h2⟩ := hok
    subst h1
    have hrep := find?_replaceFirst (fun t => some t.id == jsParseInt s)
      (fun t => applyDoneCascade t ns)
      (applyDoneCascade_pres s ns) tasks t0 hf
    rw [hrep] at hfind
    injection hfind with hfind
    subst hfind
    exact applyDoneCascade_all_done t0 ns hns

/-- Concrete data for exercising the done cascade. -/
def w2task : Task :=
  { id := 1, status := some "pending",
    subtasks := some [{ id := 1, status := some "pending" },
                      { id := 2, status := some "completed" }] }

/-- The state the cascade is expected to produce for w2task. -/
def w2after : Task :=
  { id := 1, status := some "done",
    subtasks := some [{ id := 1, status := some "done" },
                      { id := 2, status := some "completed" }] }

theorem setStatus_done_cascades_to_subtasks_witness :
    (w2after.subtasks.getD []).all (fun st => isDoneStr st.status) = true :=
  setStatus_done_cascades_to_subtasks [w2task] "1" "done" [w2after] false w2after
    (Or.inl rfl) (by decide) (by rfl) (by decide)

/-- Concrete single-task store used for the batch-abort analysis. -/
def c1task : Task := { id := 2, status := some "pending", dependencies := some [] }

/-- C1 counterexample: in the batch "99,2" the failing first address 99 makes
setTaskStatus abort with its error; task 2 is never updated and no
per-item result list is produced, although updating 2 alone succeeds. -/
theorem setTaskStatus_batch_aborts_counterexample :
    setTaskStatus [c1task] "99,2" "done" = .error (.taskNotFound (some 99)) ∧
    setTaskStatus [c1task] "2" "done"
      = .ok [{ c1task with status := some "done" }] := by
  exact ⟨rfl, rfl⟩

/-- C1 (amended): the comma-delimited batch is processed sequentially and the
first per-item failure aborts the whole operation with that item's error;
the addresses after the failing one are not updated and no per-item result
list is produced.  The split-and-trim of the input is as the CLI does it. -/
theorem setTaskStatus_batch_abort_on_first_failure
    (tasks : List Task) (ns a : String) (rest : List String) (e : UpdErr)
    (hfail : updateSingleTaskStatus tasks a ns = .error e) :
    setStatusBatchGo tasks (a :: rest) ns = .error e ∧
    ∀ input, setTaskStatus tasks input ns
      = setStatusBatchGo tasks ((jsSplit input ',').map jsTrim) ns := by
  refine ⟨?_, fun input => rfl⟩
  unfold setStatusBatchGo
  rw [hfail]

theorem setTaskStatus_batch_abort_on_first_failure_witness :
    setStatusBatchGo [c1task] ["99", "2"] "done"
      = .error (.taskNotFound (some 99)) :=
  (setTaskStatus_batch_abort_on_first_failure [c1task] "done" "99" ["2"]
    (.taskNotFound (some 99)) (by rfl)).1

/-- Everything of a task except its subtasks list. -/
def shell (t : Task) : Task := { t with subtasks := none }

/-- C6: updating a subtask's status never mutates any field of the parent task
other than the subtasks list itself (nor any other task), and the advisory
"parent eligible for completion" signal is emitted exactly when the new
status normalizes to done, all sibling subtasks end up done, and the
parent is not already done — the parent's own status is untouched. -/
theorem subtask_status_update_parent_frame
    (tasks : List Task) (s ns : String) (ts' : List Task) (adv : Bool)
    (hdot : jsContainsChar s '.' = true)
    (hok : updateSingleTaskStatus tasks s ns = .ok (ts', adv)) :
    ts'.map shell = tasks.map shell ∧
    ∀ pt, tasks.find? (fun t => some t.id == parsedParentId s) = some pt →
      ∀ pt', ts'.find? (fun t => some t.id == parsedParentId s) = some pt' →
        adv = (isDoneInput ns
          && (pt'.subtasks.getD []).all (fun st => isDoneStr st.status)
          && !(isDoneStr pt.status)) := by
  cases hfp : tasks.find? (fun t => some t.id == parsedParentId s) with
  | none => simp [updateSingleTaskStatus, hdot, hfp] at hok
  | some pt0 =>
    cases hsubs : pt0.subtasks with
    | none => simp [updateSingleTaskStatus, hdot, hfp, hsubs] at hok
    | some subs =>
      cases hfs : subs.find? (fun st => some st.id == parsedSubId s) with
      | none => simp [updateSingleTaskStatus, hdot, hfp, hsubs, hfs] at hok
      | some st0 =>
        simp only [updateSingleTaskStatus, hdot, hfp, hsubs, hfs, if_true,
          Except.ok.injEq, Prod.mk.injEq] at hok
        obtain ⟨h1, h2⟩ := hok
        subst h1
        constructor
        · exact replaceFirst_map (fun t => some t.id == parsedParentId s)
            (fun t => { t with subtasks := some (replaceFirst
              (fun st => some st.id == parsedSubId s)
              (fun st => { st with status := some ns }) subs) })
            shell (fun x => rfl) tasks
        · intro pt hpt pt' hpt'
          injection hpt with hpt
          subst hpt
          have hrep := find?_replaceFirst (fun t => some t.id == parsedParentId s)
            (fun t => { t with subtasks := some (replaceFirst
              (fun st => some st.id == parsedSubId s)
              (fun st => { st with status := some ns }) subs) })
            (fun x => rfl) tasks pt0 hfp
          rw [hrep] at hpt'
          injection hpt' with hpt'
          subst hpt'
          exact h2.symm

/-- Concrete store for the subtask-update frame property. -/
def w6tasks : List Task :=
  [{ id := 1, status := some "pending",
     subtasks := some [{ id := 1, status := some "done" },
                       { id := 2, status := some "pending" }] }]

/-- Expected state after setting subtask 1.2 to done. -/
def w6after : List Task :=
  [{ id := 1, status := some "pending",
     subtasks := some [{ id := 1, status := some "done" },
                       { id := 2, status := some "done" }] }]

theorem subtask_status_update_parent_frame_witness :
    w6after.map shell = w6tasks.map shell :=
  (subtask_status_update_parent_frame w6tasks "1.2" "done" w6after true
    (by decide) (by rfl)).1

/-- The ranking stated by the selector contract: higher priority first, then
fewer dependencies, then lower numeric id. -/
def rankLt (a b : Task) : Prop :=
  priorityValue b.priority < priorityValue a.priority ∨
  (priorityValue a.priority = priorityValue b.priority ∧
    ((a.dependencies.getD []).length < (b.dependencies.getD []).length ∨
     ((a.dependencies.getD []).length = (b.dependencies.getD []).length ∧
      a.id < b.id)))

theorem cmpTasks_lt_iff (a b : Task)
    (ha : a.dependencies.isSome = true) (hb : b.dependencies.isSome = true) :
    cmpTasks a b < 0 ↔ rankLt a b := by
  unfold cmpTasks rankLt
  dsimp only
  split_ifs with h1 h2
  · simp only [bne_iff_ne, ne_eq] at h1
    omega
  · simp only [bne_iff_ne, ne_eq] at h1
    simp only [Bool.and_eq_true, bne_iff_ne, ne_eq, ha, hb, true_and] at h2
    omega
  · simp only [bne_iff_ne, ne_eq] at h1
    simp only [Bool.and_eq_true, bne_iff_ne, ne_eq, ha, hb, true_and] at h2
    omega

theorem rankLt_irrefl (a : Task) : ¬ rankLt a a := by
  unfold rankLt; omega

theorem rankLt_trans (a b c : Task) (h1 : rankLt a b) (h2 : rankLt b c) :
    rankLt a c := by
  unfold rankLt at *; omega

theorem rankLt_of_lt_of_not_lt (y b x : Task) (h1 : rankLt y b)
    (h2 : ¬ rankLt x b) : rankLt y x := by
  unfold rankLt at *; omega

theorem pickBest_mem (xs : List Task) (x : Task) : pickBest x xs ∈ x :: xs := by
  induction xs generalizing x with
  | nil => simp [pickBest]
  | cons y ys ih =>
    unfold pickBest
    by_cases h : cmpTasks y x < 0
    · rw [if_pos h]
      exact List.mem_cons_of_mem x (ih y)
    · rw [if_neg h]
      rcases List.mem_cons.mp (ih x) with h1 | h1
      · rw [h1]; exact List.mem_cons_self x _
      · exact List.mem_cons_of_mem x (List.mem_cons_of_mem y h1)

theorem pickBest_min (xs : List Task) (x : Task)
    (hall : ∀ z ∈ x :: xs, z.dependencies.isSome = true) :
    ∀ u ∈ x :: xs, ¬ rankLt u (pickBest x xs) := by
  induction xs generalizing x with
  | nil =>
    intro u hu
    rw [List.mem_singleton.mp hu]
    exact rankLt_irrefl x
  | cons y ys ih =>
    intro u hu
    unfold pickBest
    by_cases h : cmpTasks y x < 0
    · rw [if_pos h]
      have hyx : rankLt y x := (cmpTasks_lt_iff y x
        (hall y (by simp)) (hall x (by simp))).mp h
      have ihy := ih y (fun z hz => hall z (by
        rcases List.mem_cons.mp hz with h1 | h1
        · rw [h1]; simp
        · simp [h1]))
      rcases List.mem_cons.mp hu with rfl | hu'
      · intro hcon
        exact ihy y (by simp) (rankLt_trans y u (pickBest y ys) hyx hcon)
      · exact ihy u hu'
    · rw [if_neg h]
      have hnyx : ¬ rankLt y x := fun hc =>
        h ((cmpTasks_lt_iff y x (hall y (by simp)) (hall x (by simp))).mpr hc)
      have ihx := ih x (fun z hz => hall z (by
        rcases List.mem_cons.mp hz with h1 | h1
        · rw [h1]; simp
        · simp [h1]))
      rcases List.mem_cons.mp hu with rfl | hu'
      · exact ihx u (by simp)
      · rcases List.mem_cons.mp hu' with rfl | hu''
        · intro hyc
          exact hnyx (rankLt_of_lt_of_not_lt u (pickBest x ys) x hyc
            (ihx x (by simp)))
        · exact ihx u (by simp [hu''])

theorem eligible_deps_isSome (tasks : List Task) (t : Task)
    (h : t ∈ eligibleTasks tasks) : t.dependencies.isSome = true := by
  unfold eligibleTasks at h
  have hp := (List.mem_filter.mp h).2
  simp only [Bool.and_eq_true] at hp
  exact hp.1.2

theorem eligible_sub (tasks : List Task) (t : Task)
    (h : t ∈ eligibleTasks tasks) : t ∈ tasks := by
  unfold eligibleTasks at h
  exact (List.mem_filter.mp h).1

/-- Scenario tasks for the selector: 1 done, 2 pending high, 3 pending low. -/
def c3task1 : Task :=
  { id := 1, status := some "done", dependencies := some [] }

/-- The expected selector result, pending with dependency on task 1, high. -/
def c3task2 : Task :=
  { id := 2, status := some "pending", dependencies := some [1],
    priority := some "high" }

/-- The competing candidate, pending with dependency on task 1, low. -/
def c3task3 : Task :=
  { id := 3, status := some "pending", dependencies := some [1],
    priority := some "low" }

/-- The selector scenario store. -/
def c3tasks : List Task := [c3task1, c3task2, c3task3]

/-- C3: findNextTask returns no task exactly when no task is eligible (status
pending or in-progress, dependencies array present, every dependency id
among done tasks); a returned task is eligible and no eligible task ranks
strictly better under (priority, dependency count, id); and on the
scenario store it picks task 2. -/
theorem findNextTask_spec (tasks : List Task) :
    (eligibleTasks tasks = [] → findNextTask tasks = none) ∧
    (∀ t, findNextTask tasks = some t →
      t ∈ eligibleTasks tasks ∧ ∀ u ∈ eligibleTasks tasks, ¬ rankLt u t) ∧
    findNextTask c3tasks = some c3task2 := by
  refine ⟨?_, ?_, by rfl⟩
  · intro h
    unfold findNextTask
    rw [h]
  · intro t ht
    unfold findNextTask at ht
    cases he : eligibleTasks tasks with
    | nil => rw [he] at ht; exact absurd ht (by simp)
    | cons x xs =>
      rw [he] at ht
      injection ht with ht
      subst ht
      have hall : ∀ z ∈ x :: xs, z.dependencies.isSome = true := by
        intro z hz
        exact eligible_deps_isSome tasks z (by rw [he]; exact hz)
      constructor
      · exact pickBest_mem xs x
      · exact pickBest_min xs x hall

theorem findNextTask_spec_witness : findNextTask ([] : List Task) = none :=
  (findNextTask_spec []).1 rfl

/-- C10: a task returned by findNextTask is always drawn from the top-level
task list, and always has a dependencies field: a pending or in-progress
task whose dependencies field is absent is never returned. -/
theorem findNextTask_requires_deps (tasks : List Task) (t : Task)
    (h : findNextTask tasks = some t) :
    t ∈ tasks ∧ t.dependencies ≠ none := by
  have helig : t ∈ eligibleTasks tasks := by
    unfold findNextTask at h
    cases he : eligibleTasks tasks with
    | nil => rw [he] at h; exact absurd h (by simp)
    | cons x xs =>
      rw [he] at h
      injection h with h
      subst h
      exact pickBest_mem xs x
  refine ⟨eligible_sub tasks t helig, ?_⟩
  have := eligible_deps_isSome tasks t helig
  cases hd : t.dependencies with
  | none => rw [hd] at this; simp at this
  | some l => simp

theorem findNextTask_requires_deps_witness :
    c3task2 ∈ c3tasks ∧ c3task2.dependencies ≠ none :=
  findNextTask_requires_deps c3tasks c3task2 (by rfl)

/-- C5: converting an existing task into a subtask fails with AlreadySubtask
when the target carries a parent back-reference, with SelfReference when
the target id equals the parent id (and the target is not already a
subtask), and with CircularConversion when the parent transitively depends
on the target through the dependency-or-parent walk; each failure is
raised before the store is written, so the state is unchanged (the Except
error carries no successor state). -/
theorem addSubtaskConvert_failure_modes (fuel : Nat) (tasks : List Task)
    (pid tid : Int) (pt et : Task)
    (hp : tasks.find? (fun t => t.id == pid) = some pt)
    (ht : tasks.find? (fun t => t.id == tid) = some et) :
    (truthyInt et.parentTaskId = true →
      addSubtaskConvert fuel tasks pid tid = .error (.alreadySubtask tid)) ∧
    (truthyInt et.parentTaskId = false → tid = pid →
      addSubtaskConvert fuel tasks pid tid = .error .selfReference) ∧
    (truthyInt et.parentTaskId = false → (tid == pid) = false →
      isTaskDependentOn fuel tasks (nodeOfTask pt) tid = true →
      addSubtaskConvert fuel tasks pid tid = .error .circularConversion) := by
  refine ⟨?_, ?_, ?_⟩
  · intro h1
    simp [addSubtaskConvert, hp, ht, h1]
  · intro h1 h2
    subst h2
    rw [hp] at ht
    injection ht with ht
    subst ht
    simp [addSubtaskConvert, hp, h1]
  · intro h1 h2 h3
    simp [addSubtaskConvert, hp, ht, h1, h2, h3]

/-- The single task of the self-reference scenario. -/
def c5t : Task := { id := 1, status := some "pending" }

theorem addSubtaskConvert_failure_modes_witness :
    addSubtaskConvert 1 [c5t] 1 1 = .error .selfReference :=
  (addSubtaskConvert_failure_modes 1 [c5t] 1 1 c5t c5t rfl rfl).2.1 rfl rfl

/-- C7: creating a new subtask requires the parent to exist (NotFound
otherwise); the new subtask id is the highest existing sibling id (0 when
there are none) plus 1, its status is the payload status defaulted to
pending, and it records the parent id. -/
theorem addSubtaskNew_spec (tasks : List Task) (pid : Int) (d : NewSubtaskData) :
    (tasks.find? (fun t => t.id == pid) = none →
      addSubtaskNew tasks pid d = .error (.parentNotFound pid)) ∧
    (∀ pt, tasks.find? (fun t => t.id == pid) = some pt →
      ∀ ts' sub, addSubtaskNew tasks pid d = .ok (ts', sub) →
        sub.id = highestSubtaskId (pt.subtasks.getD []) + 1 ∧
        sub.status = some (strOr d.status "pending") ∧
        (d.status = none → sub.status = some "pending") ∧
        sub.parentTaskId = some pid ∧
        ts' = replaceFirst (fun t => t.id == pid)
          (fun t =>
            { t with subtasks := some (pt.subtasks.getD [] ++ [sub]) })
          tasks) := by
  constructor
  · intro h
    simp [addSubtaskNew, h]
  · intro pt hpt ts' sub hok
    simp only [addSubtaskNew, hpt, Except.ok.injEq, Prod.mk.injEq] at hok
    obtain ⟨h1, h2⟩ := hok
    subst h2
    refine ⟨rfl, rfl, ?_, rfl, ?_⟩
    · intro hd
      simp [strOr, hd]
    · exact h1.symm

/-- Parent task of the addSubtask scenario, with no existing subtasks. -/
def c7parent : Task := { id := 2, status := some "pending" }

/-- The subtask the scenario is expected to create, address 2.1. -/
def c7sub : Subtask :=
  { id := 1, title := some "x", description := some "", details := some "",
    status := some "pending", dependencies := some [],
    parentTaskId := some 2 }

theorem addSubtaskNew_spec_witness :
    c7sub.id = highestSubtaskId (c7parent.subtasks.getD []) + 1 ∧
    c7sub.status = some (strOr (none : Option String) "pending") ∧
    ((none : Option String) = none → c7sub.status = some "pending") ∧
    c7sub.parentTaskId = some 2 ∧
    [{ c7parent with subtasks := some [c7sub] }]
      = replaceFirst (fun t => t.id == 2)
        (fun t =>
          { t with subtasks := some (c7parent.subtasks.getD [] ++ [c7sub]) })
        [c7parent] :=
  (addSubtaskNew_spec [c7parent] 2 { title := some "x" }).2 c7parent rfl
    [{ c7parent with subtasks := some [c7sub] }] c7sub rfl

/-- The subtask of the conversion scenario; it has its own priority high. -/
def c4sub : Subtask :=
  { id := 1, title := some "s", status := some "pending",
    priority := some "high", dependencies := some [] }

/-- Parent of the conversion scenario, priority low. -/
def c4t2 : Task :=
  { id := 2, status := some "pending", priority := some "low",
    subtasks := some [c4sub] }

/-- Filler task making the maximum task id 5. -/
def c4t5 : Task := { id := 5, status := some "pending" }

/-- Store for the conversion scenario: max task id is 5. -/
def c4tasks : List Task := [c4t2, c4t5]

/-- Priority of the converted task of a removeSubtask result, when present. -/
def convPriority (r : Except SubErr (List Task × Option Task)) :
    Option (Option String) :=
  match r with
  | .ok (_, some ct) => some ct.priority
  | _ => none

/-- C4 counterexample: the subtask 2.1 carries its own priority high while the
parent task 2 has priority low; the converted task comes out with the
parent's low, not the subtask's high — the code always takes the parent's
priority, it does not merely default to it when the subtask has none. -/
theorem removeSubtask_priority_counterexample :
    convPriority (removeSubtask c4tasks "2.1" true) = some (some "low") ∧
    convPriority (removeSubtask c4tasks "2.1" true) ≠ some (some "high") := by
  decide

/-- C4 (amended): removeSubtask with convertToTask removes the subtask from
the parent's list (dropping the subtasks field entirely when it becomes
empty) and appends a new top-level task with id = (max existing task id) +
1 inheriting the subtask's title, status, description, details and
dependencies, with the former parent's id appended to the dependencies
when absent; the new task's priority is always the former parent's
priority (defaulting to medium), regardless of any priority the subtask
itself carried. -/
theorem removeSubtask_convert_spec
    (tasks : List Task) (s : String) (pid : Int) (pt : Task)
    (subs : List Subtask) (rsub : Subtask) (rest : List Subtask)
    (ts' : List Task) (ct : Task)
    (hdot : jsContainsChar s '.' = true)
    (hpid : parsedParentId s = some pid)
    (hfind : tasks.find? (fun t => t.id == pid) = some pt)
    (hsubs : pt.subtasks = some subs)
    (hrem : removeFirst (fun st => some st.id == parsedSubId s) subs
      = some (rsub, rest))
    (hok : removeSubtask tasks s true = .ok (ts', some ct)) :
    ct.id = jsMaxList (tasks.map (·.id)) + 1 ∧
    ct.title = rsub.title ∧
    ct.status = some (strOr rsub.status "pending") ∧
    ct.description = some (strOr rsub.description "") ∧
    ct.details = some (strOr rsub.details "") ∧
    ct.priority = some (strOr pt.priority "medium") ∧
    ct.dependencies = some (if (rsub.dependencies.getD []).contains pid
      then rsub.dependencies.getD [] else rsub.dependencies.getD [] ++ [pid]) ∧
    pid ∈ ct.dependencies.getD [] ∧
    ts' = replaceFirst (fun t => t.id == pid)
        (fun t =>
          { t with subtasks := if rest.length == 0 then none else some rest })
        tasks
      ++ [ct] := by
  have hne : subs ≠ [] := by
    intro h
    subst h
    simp [removeFirst] at hrem
  have hlen : (subs.length == 0) = false := by
    cases subs with
    | nil => exact absurd rfl hne
    | cons a l => simp
  simp only [removeSubtask, hdot, hpid, hfind, hsubs, hlen, hrem,
    Bool.not_true, Bool.false_eq_true, if_false, if_true,
    Except.ok.injEq, Prod.mk.injEq, Option.some.injEq] at hok
  obtain ⟨h1, h2⟩ := hok
  subst h2
  have hmap : (replaceFirst (fun t => t.id == pid)
      (fun t =>
        { t with subtasks := if rest.length == 0 then none else some rest })
      tasks).map (fun t => t.id) = tasks.map (fun t => t.id) :=
    replaceFirst_map (fun t => t.id == pid)
      (fun t =>
        { t with subtasks := if rest.length == 0 then none else some rest })
      (fun t => t.id) (fun x => rfl) tasks
  refine ⟨?_, rfl, rfl, rfl, rfl, rfl, rfl, ?_, h1.symm⟩
  · show jsMaxList ((replaceFirst (fun t => t.id == pid)
      (fun t =>
        { t with subtasks := if rest.length == 0 then none else some rest })
      tasks).map (fun t => t.id)) + 1 = jsMaxList (tasks.map (fun t => t.id)) + 1
    rw [hmap]
  · show pid ∈ (some (if (rsub.dependencies.getD []).contains pid
      then rsub.dependencies.getD []
      else rsub.dependencies.getD [] ++ [pid])).getD []
    by_cases hc : (rsub.dependencies.getD []).contains pid
    · simp only [hc, if_true, Option.getD_some]
      simpa using hc
    · simp only [hc, Bool.false_eq_true, if_false, Option.getD_some]
      simp

/-- The task the scenario conversion is expected to create. -/
def c4ct : Task :=
  { id := 6, title := some "s", description := some "", details := some "",
    testStrategy := none, status := some "pending", priority := some "low",
    dependencies := some [2], subtasks := none, parentTaskId := none }

/-- The expected store after converting subtask 2.1. -/
def c4after : List Task :=
  [{ c4t2 with subtasks := none }, c4t5, c4ct]

theorem removeSubtask_convert_spec_witness :
    c4ct.id = jsMaxList (c4tasks.map (·.id)) + 1 ∧
    (2 : Int) ∈ c4ct.dependencies.getD [] :=
  ⟨(removeSubtask_convert_spec c4tasks "2.1" 2 c4t2 [c4sub] c4sub [] c4after
      c4ct (by decide) (by decide) (by decide) rfl (by decide) (by rfl)).1,
   (removeSubtask_convert_spec c4tasks "2.1" 2 c4t2 [c4sub] c4sub [] c4after
      c4ct (by decide) (by decide) (by decide) rfl (by decide)
      (by rfl)).2.2.2.2.2.2.2.1⟩

theorem filter_not_mem_filter_not (l : List Int) (valid : Int → Bool) :
    l.filter (fun d => !((l.filter (fun d => !(valid d))).contains d))
      = l.filter valid := by
  apply List.filter_congr
  intro d hd
  by_cases hv : valid d = true
  · have : d ∉ l.filter (fun d => !(valid d)) := by
      intro hmem
      have := (List.mem_filter.mp hmem).2
      rw [hv] at this
      simp at this
    simp [hv, this]
  · have : d ∈ l.filter (fun d => !(valid d)) := by
      apply List.mem_filter.mpr
      exact ⟨hd, by simp [hv]⟩
    simp only [Bool.not_eq_true] at hv
    simp [hv, this]

/-- C8: addTask assigns the new task id = (max existing task id) + 1, keeps
exactly the supplied dependencies that resolve to an existing task id
(reporting the dropped ones as the warning list, never failing), and
appends the new pending task to the store. -/
theorem addTask_spec (tasks : List Task) (content : TaskContent)
    (dependencies : List Int) (priority : String)
    (_hne : tasks ≠ []) :
    (addTaskCore tasks content dependencies priority).2.1.id
        = jsMaxList (tasks.map (·.id)) + 1 ∧
    (addTaskCore tasks content dependencies priority).2.1.dependencies
        = some (dependencies.filter (fun d => tasks.any (fun t => t.id == d))) ∧
    (addTaskCore tasks content dependencies priority).2.2
        = dependencies.filter (fun d => !(tasks.any (fun t => t.id == d))) ∧
    (addTaskCore tasks content dependencies priority).1
        = tasks ++ [(addTaskCore tasks content dependencies priority).2.1] := by
  refine ⟨rfl, ?_, rfl, rfl⟩
  show some (if (dependencies.filter
      (fun d => !(tasks.any (fun t => t.id == d)))).length > 0 then
      dependencies.filter (fun d => !((dependencies.filter
        (fun d => !(tasks.any (fun t => t.id == d)))).contains d))
    else dependencies)
    = some (dependencies.filter (fun d => tasks.any (fun t => t.id == d)))
  by_cases hinv : (dependencies.filter
      (fun d => !(tasks.any (fun t => t.id == d)))).length > 0
  · rw [if_pos hinv]
    rw [filter_not_mem_filter_not dependencies (fun d => tasks.any (fun t => t.id == d))]
  · rw [if_neg hinv]
    have hempty : dependencies.filter
        (fun d => !(tasks.any (fun t => t.id == d))) = [] := by
      cases hl : dependencies.filter (fun d => !(tasks.any (fun t => t.id == d))) with
      | nil => rfl
      | cons a l => rw [hl] at hinv; simp at hinv
    have : ∀ d ∈ dependencies, tasks.any (fun t => t.id == d) = true := by
      intro d hd
      by_cases hv : tasks.any (fun t => t.id == d) = true
      · exact hv
      · exfalso
        have : d ∈ dependencies.filter (fun d => !(tasks.any (fun t => t.id == d))) :=
          List.mem_filter.mpr ⟨hd, by simp [hv]⟩
        rw [hempty] at this
        simp at this
    exact congrArg some ((List.filter_eq_self.mpr this).symm)

/-- Store with two tasks for the addTask scenario. -/
def c8tasks : List Task :=
  [{ id := 1, status := some "done" }, { id := 3, status := some "pending" }]

/-- Content payload for the addTask scenario. -/
def c8content : TaskContent := { title := "t", description := "d" }

theorem addTask_spec_witness :
    (addTaskCore c8tasks c8content [1, 99, 3] "medium").2.1.id
        = jsMaxList (c8tasks.map (·.id)) + 1 ∧
    (addTaskCore c8tasks c8content [1, 99, 3] "medium").2.1.dependencies
        = some ([1, 99, 3].filter (fun d => c8tasks.any (fun t => t.id == d))) :=
  ⟨(addTask_spec c8tasks c8content [1, 99, 3] "medium" (by decide)).1,
   (addTask_spec c8tasks c8content [1, 99, 3] "medium" (by decide)).2.1⟩

/-- Whether a parsed array entry is a genuine object. -/
def isObjRec (r : GenRecord) : Bool :=
  match r with
  | .obj _ => true
  | .notObject => false

/-- Numeric projection of a raw dependency entry. -/
def rawAsNum (x : RawVal) : Option Int :=
  match x with
  | .vnum n => some n
  | _ => none

/-- C9: the validator admits only object records (entries that are not objects
are skipped, so the output has exactly one record per object entry, and
each object at index i contributes its validated form with expected id
startId + i); validation defaults a missing title to the placeholder
"Subtask" plus the expected id, makes a missing status pending, and drops
every non-numeric entry of the dependencies array. -/
theorem parseValidate_spec (rs : List GenRecord) (startId : Int) :
    (parseValidate rs startId).length = (rs.filter isObjRec).length ∧
    (∀ i (h : i < rs.length) o, rs.get ⟨i, h⟩ = .obj o →
      validateRec o (startId + (i : Int)) ∈ parseValidate rs startId) ∧
    (∀ o eid,
      (o.title = none →
        (validateRec o eid).title = .vstr ("Subtask " ++ toString eid)) ∧
      (o.status = none → (validateRec o eid).status = .vstr "pending") ∧
      (∀ l, o.dependencies = some (.varr l) →
        (validateRec o eid).dependencies = l.filterMap rawAsNum)) := by
  refine ⟨?_, ?_, ?_⟩
  · induction rs generalizing startId with
    | nil => rfl
    | cons r rest ih =>
      cases r with
      | notObject => simpa [parseValidate, isObjRec] using ih (startId + 1)
      | obj o => simpa [parseValidate, isObjRec] using ih (startId + 1)
  · induction rs generalizing startId with
    | nil => intro i h; simp at h
    | cons r rest ih =>
      intro i h o ho
      cases i with
      | zero =>
        simp only [List.get] at ho
        subst ho
        simp [parseValidate]
      | succ j =>
        simp only [List.get] at ho
        have hj : j < rest.length := Nat.lt_of_succ_lt_succ h
        have := ih (startId + 1) j hj o ho
        have harith : startId + 1 + (j : Int) = startId + ((j + 1 : Nat) : Int) := by
          push_cast
          ring
        rw [harith] at this
        cases r with
        | notObject => simpa [parseValidate] using this
        | obj o2 =>
          simp only [parseValidate]
          exact List.mem_cons_of_mem _ this
  · intro o eid
    refine ⟨?_, fun _ => rfl, ?_⟩
    · intro ht
      simp [validateRec, rawOr, ht]
    · intro l hl
      simp only [validateRec, numericDeps, hl]
      rfl

/-- A generator record with missing title and status and mixed dependencies. -/
def c9rec : RawRecord :=
  { description := some (.vstr "desc"),
    dependencies := some (.varr [.vnum 1, .vstr "x", .vnum 2, .vother]) }

/-- A generator response with one junk entry and one object record. -/
def c9list : List GenRecord := [.notObject, .obj c9rec]

theorem parseValidate_spec_witness :
    validateRec c9rec (5 + ((1 : Nat) : Int)) ∈ parseValidate c9list 5 ∧
    (validateRec c9rec 6).status = .vstr "pending" ∧
    (validateRec c9rec 6).dependencies
      = [RawVal.vnum 1, .vstr "x", .vnum 2, .vother].filterMap rawAsNum :=
  ⟨(parseValidate_spec c9list 5).2.1 1 (by decide) c9rec rfl,
   ((parseValidate_spec c9list 5).2.2 c9rec 6).2.1 rfl,
   ((parseValidate_spec c9list 5).2.2 c9rec 6).2.2
     [RawVal.vnum 1, .vstr "x", .vnum 2, .vother] rfl⟩

end TaskMaster
